import Mathlib

set_option maxHeartbeats 1000000

/-!
Shallow embedding of three webdnn source files:

* `graph_transpiler/webdnn/graph/operators/pooling_2d.py` (class `Pooling2D`);
* `graph_transpiler/webdnn/backend/webgl/optimize_rules/insert_channel_mode_conversion.py`
  (the channel-mode conversion pass of the WebGL backend);
* `graph_transpiler/webdnn/backend/webassembly/optimize_rules/webassembly_optimize_rule.py`
  (the ordered sub-rule list of the WebAssembly backend).

Python integers are modelled as `Int`; Python floor division `//` is `Int.fdiv` and
Python `%` is `Int.fmod` (both round toward negative infinity, as Python does).
A failing `assert` in a constructor is modelled by returning `none`.
Python dictionaries (operator slot maps, attribute registries keyed by node
identity) are modelled as association lists, looked up by `alookup`.
-/

namespace WebDNN

/-- First-match association-list lookup (the model of a Python `dict` access /
attribute registry keyed by node identity). -/
def alookup {α β : Type} [DecidableEq α] (k : α) : List (α × β) → Option β
  | [] => none
  | p :: t => if p.1 = k then some p.2 else alookup k t

/-! ### Pooling2D (`pooling_2d.py`) -/

/-- The four axis labels used by `Pooling2D.exec` (`Axis.N`, `Axis.H`, `Axis.W`,
`Axis.C` of `webdnn.graph.axis`). -/
inductive Axis where
  | N
  | H
  | W
  | C
deriving DecidableEq, Repr, Fintype

/-- `x.shape_dict`: the mapping from axis to extent of a 4-dimensional variable. -/
structure ShapeDict where
  n : Int
  h : Int
  w : Int
  c : Int
deriving DecidableEq, Repr

def ShapeDict.get : ShapeDict → Axis → Int
  | d, Axis.N => d.n
  | d, Axis.H => d.h
  | d, Axis.W => d.w
  | d, Axis.C => d.c

/-- `OrderNHWC` of `webdnn.graph.order`. -/
def OrderNHWC : List Axis := [Axis.N, Axis.H, Axis.W, Axis.C]

/-- A `Variable` as used by `Pooling2D.exec`: an axis-to-extent map plus an order.
`shape_dict` is kept directly (it is invariant under `change_order`). -/
structure PoolVar where
  shape : ShapeDict
  order : List Axis
deriving DecidableEq, Repr

/-- `Variable.change_order`: re-layouts the variable to the given axis order; the
per-axis extents (`shape_dict`) are unchanged. -/
def PoolVar.change_order (v : PoolVar) (ord : List Axis) : PoolVar :=
  { v with order := ord }

/-- `IntOrTuple` of `webdnn.graph.operators.util`: a scalar or a pair. -/
inductive IntOrTuple where
  | int (i : Int)
  | tuple (p : Int × Int)
deriving DecidableEq, Repr

/-- Modelled from the spec: `webdnn.graph.operators.util.to_tuple` (the module is
not in src/; the `Pooling2D` docstring documents "int or tuple of int"
parameters) — a scalar is duplicated into a pair, a pair is taken as is. -/
def to_tuple : IntOrTuple → Int × Int
  | IntOrTuple.int i => (i, i)
  | IntOrTuple.tuple p => p

/-- The state of a constructed `Pooling2D` operator: its name and the parameter
set stored by `__init__` (`ksize`, `stride`, `padding`). -/
structure Pooling2D where
  name : Option String
  ksize : Int × Int
  stride : Int × Int
  padding : Int × Int
deriving DecidableEq, Repr

/-- `Pooling2D.__init__`: stores the tupled parameters, asserting
`ksize[0] >= stride[0]` and `ksize[1] >= stride[1]`; a failing assert is `none`. -/
def Pooling2D.init (name : Option String) (ksize stride padding : IntOrTuple) :
    Option Pooling2D :=
  if (to_tuple ksize).1 ≥ (to_tuple stride).1 then
    if (to_tuple ksize).2 ≥ (to_tuple stride).2 then
      some { name := name, ksize := to_tuple ksize, stride := to_tuple stride,
             padding := to_tuple padding }
    else none
  else none

/-- The observable outcome of `Pooling2D.exec`: the output variable `y`, whether
the edge-truncation warning was emitted, and the axes for which a `Tensorwise`
attribute was added to the operator. -/
structure ExecResult where
  y : PoolVar
  warned : Bool
  tensorwiseAxes : List Axis
deriving DecidableEq, Repr

/-- `Pooling2D.exec`: computes the output extents
`H2 = (H + 2*padding[0] + stride[0] - ksize[0] - 1) // stride[0] + 1` (same for `W2`),
emits the edge-truncation warning when
`(H + 2*padding[0] - ksize[0]) % stride[0] != 0` or the analogue for `W`,
builds `y = Variable([N, H2, W2, C2], OrderNHWC)`, changes its order to `x.order`,
and adds a `Tensorwise` attribute for every axis of `x.order` other than `H`/`W`. -/
def Pooling2D.exec (op : Pooling2D) (x : PoolVar) : ExecResult :=
  { y := (PoolVar.change_order
      { shape :=
          { n := x.shape.get Axis.N,
            h := (x.shape.get Axis.H + 2 * op.padding.1 + op.stride.1 - op.ksize.1 - 1).fdiv
                   op.stride.1 + 1,
            w := (x.shape.get Axis.W + 2 * op.padding.2 + op.stride.2 - op.ksize.2 - 1).fdiv
                   op.stride.2 + 1,
            c := x.shape.get Axis.C },
        order := OrderNHWC } x.order),
    warned := (!((x.shape.get Axis.H + 2 * op.padding.1 - op.ksize.1).fmod op.stride.1 == 0)) ||
              (!((x.shape.get Axis.W + 2 * op.padding.2 - op.ksize.2).fmod op.stride.2 == 0)),
    tensorwiseAxes := x.order.filter fun a => !(a == Axis.H || a == Axis.W) }

/-! ### WebassemblyOptimizeRule (`webassembly_optimize_rule.py`) -/

/-- The sub-rule vocabulary appearing in `WebassemblyOptimizeRule.__init__`. -/
inductive WasmRule where
  | InsertTranspose
  | ReplaceConvolutionByIm2Col
  | MergeSgemmAndElementwiseMul
  | ConstantFolding
  | ReplaceDeconvolutionByCol2Im
  | ReplaceLinearBySgemm
  | UseEigen
  | ElementwiseKernelFusion
  | UpdateInplaceAttribute
  | DumpGraph
deriving DecidableEq, Repr

/-- `WebassemblyOptimizeRule.__init__`: the ordered `sub_rules` list, with
`DumpGraph` appended when `flags.DEBUG` is set. -/
def webassemblyOptimizeRule (debug : Bool) : List WasmRule :=
  let sub_rules : List WasmRule :=
    [WasmRule.InsertTranspose,
     WasmRule.ReplaceConvolutionByIm2Col,
     WasmRule.MergeSgemmAndElementwiseMul,
     WasmRule.ConstantFolding,
     WasmRule.ReplaceDeconvolutionByCol2Im,
     WasmRule.MergeSgemmAndElementwiseMul,
     WasmRule.ConstantFolding,
     WasmRule.ReplaceLinearBySgemm,
     WasmRule.MergeSgemmAndElementwiseMul,
     WasmRule.ConstantFolding,
     WasmRule.UseEigen,
     WasmRule.ElementwiseKernelFusion,
     WasmRule.UpdateInplaceAttribute]
  if debug then sub_rules ++ [WasmRule.DumpGraph] else sub_rules

/-- The fusion rules named by the spec: `MergeSgemmAndElementwiseMul` and
`ElementwiseKernelFusion`. -/
def isFusionRule : WasmRule → Bool
  | WasmRule.MergeSgemmAndElementwiseMul => true
  | WasmRule.ElementwiseKernelFusion => true
  | _ => false

/-! ### InsertChannelModeConversion (`insert_channel_mode_conversion.py`)

The graph is modelled as a mutable state: operators and variables are identified
by numeric ids, operator slot maps are association lists from slot name to
variable id, and the `ChannelMode` / `TextureShape` attribute registries are
association lists keyed by variable id.  Mutation is explicit state passing. -/

/-- `ChannelModeEnum` of `webdnn.backend.webgl.attributes.channel_mode`. -/
inductive CMode where
  | R
  | RGBA
deriving DecidableEq, Repr

/-- Operator classification used by `InsertChannelModeConversion.optimize`'s
`isinstance` dispatch: `Sgemm`, `Tensordot`, the two explicit conversion
operators, and every other operator kind (`Generic`). -/
inductive OpKind where
  | Sgemm
  | Tensordot
  | ConvertRGBAtoR
  | ConvertRtoRGBA
  | Generic
deriving DecidableEq, Repr

/-- The per-variable data copied around by the pass: `v.shape` and `v.order`
(opaque payloads here; the pass only copies them). -/
structure VarData where
  shape : List Int
  order : List Axis
deriving DecidableEq, Repr

/-- An `Operator` as seen by the pass: its kind and its named input/output slots
(slot name to variable id). -/
structure GOp where
  kind : OpKind
  inputs : List (String × Nat)
  outputs : List (String × Nat)
deriving DecidableEq, Repr

/-- The graph state: the operators (ordered as `traverse.listup_operators` lists
them), the variable payloads, the `ChannelMode` and `TextureShape` attribute
registries, and counters supplying fresh variable/operator ids. -/
structure GState where
  ops : List (Nat × GOp)
  varData : List (Nat × VarData)
  chanMode : List (Nat × CMode)
  texShape : List (Nat × (Int × Int))
  freshVar : Nat
  freshOp : Nat
deriving DecidableEq, Repr

/-- Modelled from the spec: `ChannelMode.get` (`channel_mode.py` is not in src/)
— the channel-mode attribute of a variable, read from the attribute registry;
a variable never assigned a mode reads as the one-scalar-per-pixel mode `R`. -/
def ChannelMode.get (s : GState) (v : Nat) : CMode :=
  (alookup v s.chanMode).getD CMode.R

/-- Modelled from the spec: `ChannelMode.set` — records the channel-mode
attribute of a variable in the registry. -/
def ChannelMode.set (s : GState) (v : Nat) (m : CMode) : GState :=
  { s with chanMode := (v, m) :: s.chanMode }

/-- Modelled from the spec: `TextureShape.get` (`texture_shape.py` is not in
src/) — the texture (height, width) attribute of a variable. -/
def TextureShape.get (s : GState) (v : Nat) : Int × Int :=
  (alookup v s.texShape).getD (0, 0)

/-- Modelled from the spec: `TextureShape.set` — records the texture
(height, width) attribute of a variable. -/
def TextureShape.set (s : GState) (v : Nat) (hw : Int × Int) : GState :=
  { s with texShape := (v, hw) :: s.texShape }

/-- Modelled from the spec: the common core of the `convert_r_to_rgba` /
`convert_rgba_to_r` helpers (their module is not in src/): create a conversion
operator of the given kind consuming `v` on slot "x0" and producing a fresh
variable on slot "y" with the same shape and order as `v` and with the emitted
channel mode `mode` ("explicit conversion operators pass one mode through and
emit the other"); return the new output variable. -/
def convertCore (kind : OpKind) (mode : CMode) (s : GState) (v : Nat) : GState × Nat :=
  let y := s.freshVar
  let vd := (alookup v s.varData).getD { shape := [], order := [] }
  ({ s with
      ops := s.ops ++ [(s.freshOp, { kind := kind, inputs := [("x0", v)],
                                     outputs := [("y", y)] })],
      varData := (y, vd) :: s.varData,
      chanMode := (y, mode) :: s.chanMode,
      freshVar := s.freshVar + 1,
      freshOp := s.freshOp + 1 }, y)

/-- Modelled from the spec: `convert_r_to_rgba` — splice an R-to-RGBA conversion
operator reading `v`; its output emits `RGBA`. -/
def convert_r_to_rgba : GState → Nat → GState × Nat :=
  convertCore OpKind.ConvertRtoRGBA CMode.RGBA

/-- Modelled from the spec: `convert_rgba_to_r` — splice an RGBA-to-R conversion
operator reading `v`; its output emits `R`. -/
def convert_rgba_to_r : GState → Nat → GState × Nat :=
  convertCore OpKind.ConvertRGBAtoR CMode.R

/-- `Operator.replace_input(v_old, v_new)`: every input slot holding `vOld` now
holds `vNew` (slot names are untouched). -/
def GOp.replace_input (g : GOp) (vOld vNew : Nat) : GOp :=
  { g with inputs := g.inputs.map fun p => if p.2 = vOld then (p.1, vNew) else p }

/-- `Operator.replace_output(v_old, v_new)`: every output slot holding `vOld`
now holds `vNew` (slot names are untouched). -/
def GOp.replace_output (g : GOp) (vOld vNew : Nat) : GOp :=
  { g with outputs := g.outputs.map fun p => if p.2 = vOld then (p.1, vNew) else p }

/-- Substitute variable `vOld` by `vNew` in every slot of an operator (the
per-operator effect of `Variable.replace`). -/
def GOp.substVar (g : GOp) (vOld vNew : Nat) : GOp :=
  { kind := g.kind,
    inputs := g.inputs.map fun p => if p.2 = vOld then (p.1, vNew) else p,
    outputs := g.outputs.map fun p => if p.2 = vOld then (p.1, vNew) else p }

/-- Mutate the operator with id `oid` in place (the model of mutating a Python
`Operator` object shared by the graph). -/
def GState.updateOp (s : GState) (oid : Nat) (f : GOp → GOp) : GState :=
  { s with ops := s.ops.map fun p => if p.1 = oid then (p.1, f p.2) else p }

/-- `Variable.replace`: `vOld.replace(vNew)` redirects every slot of every
operator holding `vOld` to `vNew`. -/
def varReplace (s : GState) (vOld vNew : Nat) : GState :=
  { s with ops := s.ops.map fun p => (p.1, p.2.substVar vOld vNew) }

/-- `Variable.change_order` on a graph variable: replace its order payload. -/
def changeOrder (s : GState) (v : Nat) (ord : List Axis) : GState :=
  { s with varData := s.varData.map fun p => if p.1 = v then (p.1, { p.2 with order := ord }) else p }

/-- The splicing branch of `_replace_input(op, var_name, target)` once the
mismatched input variable `v` is known: create the conversion operator of the
given kind reading `v` (`convMode` is the mode its fresh output emits), copy
the texture shape of `v` onto the new intermediate variable, and redirect the
slot of operator `oid` from `v` to the new intermediate. -/
def spliceInputCore (convKind : OpKind) (convMode : CMode) (s : GState) (oid v : Nat) :
    GState :=
  let sv := convertCore convKind convMode s v
  let s2 := TextureShape.set sv.1 sv.2 (TextureShape.get sv.1 v)
  s2.updateOp oid (fun g => g.replace_input v sv.2)

/-- `_replace_input(op, var_name, target)`: if the slot's variable already has
mode `target`, do nothing and report `false`; otherwise splice the appropriate
conversion between producer and `op` (see `spliceInputCore`;
`convert_r_to_rgba` when the target is `RGBA`, `convert_rgba_to_r` when it is
`R`) and report `true`. -/
def replaceInputSlot (s : GState) (oid : Nat) (varName : String) (target : CMode) :
    GState × Bool :=
  match alookup oid s.ops with
  | none => (s, false)
  | some g =>
    match alookup varName g.inputs with
    | none => (s, false)
    | some v =>
      if ChannelMode.get s v = target then (s, false)
      else if target = CMode.RGBA then
        (spliceInputCore OpKind.ConvertRtoRGBA CMode.RGBA s oid v, true)
      else
        (spliceInputCore OpKind.ConvertRGBAtoR CMode.R s oid v, true)

/-- The splicing branch of `_replace_output(op, var_name, target)` once the
mismatched output variable `v` is known.  `convKind`/`convMode` are the kind and
emitted mode of the conversion operator spliced behind `op` (the inverse
conversion relative to `target`): create a fresh variable `v_new` with `v`'s
shape and order carrying mode `target`, make `op` write `v_new`, create the
conversion reading `v_new`, change the conversion output's order to `v.order`
and substitute that output by the original `v`. -/
def spliceOutputCore (convKind : OpKind) (convMode : CMode) (s : GState)
    (oid v : Nat) (target : CMode) : GState :=
  let vd := (alookup v s.varData).getD { shape := [], order := [] }
  let vNew := s.freshVar
  let s1 : GState :=
    { s with varData := (vNew, vd) :: s.varData, freshVar := s.freshVar + 1 }
  let s2 := ChannelMode.set s1 vNew target
  let s3 := s2.updateOp oid (fun g => g.replace_output v vNew)
  let sy := convertCore convKind convMode s3 vNew
  let s4 := changeOrder sy.1 sy.2 vd.order
  varReplace s4 sy.2 v

/-- `_replace_output(op, var_name, target)`: if the slot's variable already has
mode `target`, do nothing and report `false`; otherwise splice the inverse
conversion behind `op` (see `spliceOutputCore`; `convert_rgba_to_r` when the
target is `RGBA`, `convert_r_to_rgba` when it is `R`) and report `true`. -/
def replaceOutputSlot (s : GState) (oid : Nat) (varName : String) (target : CMode) :
    GState × Bool :=
  match alookup oid s.ops with
  | none => (s, false)
  | some g =>
    match alookup varName g.outputs with
    | none => (s, false)
    | some v =>
      if ChannelMode.get s v = target then (s, false)
      else if target = CMode.RGBA then
        (spliceOutputCore OpKind.ConvertRGBAtoR CMode.R s oid v target, true)
      else
        (spliceOutputCore OpKind.ConvertRtoRGBA CMode.RGBA s oid v target, true)

/-- Python's `any` over a generator with side effects: evaluate the per-element
action left to right, stopping at the first `true` (as
`any(_replace_input(op, var_name, target) for var_name in op.inputs.keys())`
does). -/
def anyEffect (f : GState → String → GState × Bool) : GState → List String → GState × Bool
  | s, [] => (s, false)
  | s, n :: rest =>
    if (f s n).2 then ((f s n).1, true) else anyEffect f (f s n).1 rest

/-- `_replace_input_all(op, target)`. -/
def replaceInputAll (s : GState) (oid : Nat) (target : CMode) : GState × Bool :=
  match alookup oid s.ops with
  | none => (s, false)
  | some g => anyEffect (fun s n => replaceInputSlot s oid n target) s (g.inputs.map Prod.fst)

/-- `_replace_output_all(op, target)`. -/
def replaceOutputAll (s : GState) (oid : Nat) (target : CMode) : GState × Bool :=
  match alookup oid s.ops with
  | none => (s, false)
  | some g => anyEffect (fun s n => replaceOutputSlot s oid n target) s (g.outputs.map Prod.fst)

/-- Sequencing of two `flag_changed |= _replace_...` calls: run `f`, then `g`
on the resulting state, OR-ing the flags. -/
def seqStep (f g : GState → GState × Bool) (s : GState) : GState × Bool :=
  ((g (f s).1).1, (f s).2 || (g (f s).1).2)

/-- The body of the `for op in traverse.listup_operators(graph)` loop of
`InsertChannelModeConversion.optimize` for one operator: `Sgemm`/`Tensordot`
are skipped; `ConvertRGBAtoR` drives slot "x0" toward `RGBA` and slot "y"
toward `R`; `ConvertRtoRGBA` the reverse; every other operator drives all of
its input and output slots toward `R`. -/
def stepOp (s : GState) (oid : Nat) : GState × Bool :=
  match alookup oid s.ops with
  | none => (s, false)
  | some g =>
    match g.kind with
    | OpKind.Sgemm => (s, false)
    | OpKind.Tensordot => (s, false)
    | OpKind.ConvertRGBAtoR =>
      seqStep (fun s => replaceInputSlot s oid "x0" CMode.RGBA)
              (fun s => replaceOutputSlot s oid "y" CMode.R) s
    | OpKind.ConvertRtoRGBA =>
      seqStep (fun s => replaceInputSlot s oid "x0" CMode.R)
              (fun s => replaceOutputSlot s oid "y" CMode.RGBA) s
    | OpKind.Generic =>
      seqStep (fun s => replaceInputAll s oid CMode.R)
              (fun s => replaceOutputAll s oid CMode.R) s

/-- The traversal loop: fold `stepOp` over the operator ids, OR-ing the changed
flags. -/
def optimizeGo : GState → Bool → List Nat → GState × Bool
  | s, flag, [] => (s, flag)
  | s, flag, oid :: rest =>
    optimizeGo (stepOp s oid).1 (flag || (stepOp s oid).2) rest

/-- `InsertChannelModeConversion.optimize`: one traversal over the operators of
the graph (the id list is snapshot before the loop, as
`traverse.listup_operators` is called once), returning the rewritten graph and
whether any conversion was inserted. -/
def optimize (s : GState) : GState × Bool :=
  optimizeGo s false (s.ops.map Prod.fst)

/-- Decidable (Bool-valued) statement that one operator's slots already carry
the channel modes the pass drives them toward. -/
def opSatisfiedB (s : GState) (g : GOp) : Bool :=
  match g.kind with
  | OpKind.Sgemm => true
  | OpKind.Tensordot => true
  | OpKind.ConvertRGBAtoR =>
    (match alookup "x0" g.inputs with
     | none => true
     | some v => ChannelMode.get s v == CMode.RGBA) &&
    (match alookup "y" g.outputs with
     | none => true
     | some v => ChannelMode.get s v == CMode.R)
  | OpKind.ConvertRtoRGBA =>
    (match alookup "x0" g.inputs with
     | none => true
     | some v => ChannelMode.get s v == CMode.R) &&
    (match alookup "y" g.outputs with
     | none => true
     | some v => ChannelMode.get s v == CMode.RGBA)
  | OpKind.Generic =>
    g.inputs.all (fun p => ChannelMode.get s p.2 == CMode.R) &&
    g.outputs.all (fun p => ChannelMode.get s p.2 == CMode.R)

/-- Decidable statement that every operator of the graph already carries its
required channel modes on every slot (the fixed point of the pass). -/
def satisfiedStateB (s : GState) : Bool :=
  s.ops.all fun p => opSatisfiedB s p.2

/-- The variable ids referenced by an operator's slots. -/
def GOp.varIds (g : GOp) : List Nat :=
  g.inputs.map Prod.snd ++ g.outputs.map Prod.snd

/-- Well-formedness of a graph state: operator ids are below the fresh-operator
counter, referenced variable ids are below the fresh-variable counter, and each
operator's slot names are distinct (as Python dict keys are). -/
def GState.WF (s : GState) : Prop :=
  ∀ p ∈ s.ops, p.1 < s.freshOp ∧ (∀ v ∈ p.2.varIds, v < s.freshVar) ∧
    (p.2.inputs.map Prod.fst).Nodup ∧ (p.2.outputs.map Prod.fst).Nodup

instance : DecidablePred GState.WF := by
  unfold GState.WF
  infer_instance

/-! ### Concrete sample graphs -/

/-- A graph with a single generic operator (id 0) reading two variables
(ids 0 and 1) that both carry mode `RGBA`. -/
def twoInputState : GState :=
  { ops := [(0, { kind := OpKind.Generic, inputs := [("x0", 0), ("x1", 1)], outputs := [] })],
    varData := [(0, { shape := [4], order := [Axis.N] }),
                (1, { shape := [4], order := [Axis.N] })],
    chanMode := [(0, CMode.RGBA), (1, CMode.RGBA)],
    texShape := [],
    freshVar := 2,
    freshOp := 1 }

/-- A graph with a single generic operator (id 0) writing one variable (id 0)
that carries mode `RGBA` and texture shape (5, 7). -/
def outputSpliceState : GState :=
  { ops := [(0, { kind := OpKind.Generic, inputs := [], outputs := [("y", 0)] })],
    varData := [(0, { shape := [4], order := [Axis.N] })],
    chanMode := [(0, CMode.RGBA)],
    texShape := [(0, (5, 7))],
    freshVar := 1,
    freshOp := 1 }

/-- A graph at the pass's fixed point: a producer (id 0) writing variable 0 in
mode `R`, consumed by a `ConvertRtoRGBA` (id 1) writing variable 1 in mode
`RGBA`, consumed by a `ConvertRGBAtoR` (id 2) writing variable 2 in mode `R`. -/
def fixedPointState : GState :=
  { ops := [(0, { kind := OpKind.Generic, inputs := [], outputs := [("y", 0)] }),
            (1, { kind := OpKind.ConvertRtoRGBA, inputs := [("x0", 0)], outputs := [("y", 1)] }),
            (2, { kind := OpKind.ConvertRGBAtoR, inputs := [("x0", 1)], outputs := [("y", 2)] })],
    varData := [(0, { shape := [4], order := [Axis.N] }),
                (1, { shape := [4], order := [Axis.N] }),
                (2, { shape := [4], order := [Axis.N] })],
    chanMode := [(0, CMode.R), (1, CMode.RGBA), (2, CMode.R)],
    texShape := [],
    freshVar := 3,
    freshOp := 3 }

/-! ## Theorems

First some generic facts about `alookup`, then behavioral lemmas about the
conversion pass, then the claim theorems. -/

theorem alookup_mem {α β : Type} [DecidableEq α] {l : List (α × β)} {k : α} {v : β}
    (h : alookup k l = some v) : (k, v) ∈ l := by
  induction l with
  | nil => simp [alookup] at h
  | cons p t ih =>
    by_cases hk : p.1 = k
    · simp only [alookup, if_pos hk] at h
      have hp : p = (k, v) := by
        cases p
        simp only [Option.some.injEq] at h
        simp_all
      rw [hp]
      exact List.mem_cons_self _ _
    · simp only [alookup, if_neg hk] at h
      exact List.mem_cons_of_mem _ (ih h)

theorem alookup_eq_of_mem_nodup {α β : Type} [DecidableEq α] {l : List (α × β)}
    {k : α} {v : β} (hnd : (l.map Prod.fst).Nodup) (hm : (k, v) ∈ l) :
    alookup k l = some v := by
  induction l with
  | nil => simp at hm
  | cons p t ih =>
    simp only [List.map_cons, List.nodup_cons] at hnd
    rcases List.mem_cons.mp hm with h | h
    · rw [← h]
      simp [alookup]
    · have hk : p.1 ≠ k := by
        intro he
        exact hnd.1 (by
          rw [he]
          exact List.mem_map_of_mem Prod.fst h)
      simp only [alookup, if_neg hk]
      exact ih hnd.2 h

theorem alookup_append_left {α β : Type} [DecidableEq α] {l l2 : List (α × β)}
    {k : α} {v : β} (h : alookup k l = some v) : alookup k (l ++ l2) = some v := by
  induction l with
  | nil => simp [alookup] at h
  | cons p t ih =>
    by_cases hk : p.1 = k
    · simp only [alookup, if_pos hk] at h ⊢
      exact h
    · simp only [alookup, if_neg hk] at h ⊢
      exact ih h

theorem alookup_append_right {α β : Type} [DecidableEq α] {l l2 : List (α × β)}
    {k : α} (h : alookup k l = none) : alookup k (l ++ l2) = alookup k l2 := by
  induction l with
  | nil => rfl
  | cons p t ih =>
    by_cases hk : p.1 = k
    · simp [alookup, hk] at h
    · simp only [alookup, if_neg hk] at h
      simp only [List.cons_append, alookup, if_neg hk]
      exact ih h

theorem alookup_none_of_keys {α β : Type} [DecidableEq α] {l : List (α × β)} {k : α}
    (h : ∀ p ∈ l, p.1 ≠ k) : alookup k l = none := by
  induction l with
  | nil => rfl
  | cons p t ih =>
    simp only [alookup, if_neg (h p (List.mem_cons_self p t))]
    exact ih fun q hq => h q (List.mem_cons_of_mem _ hq)

/-- Lookup through a key-preserving, single-key value update (the shape of
`GState.updateOp` and `changeOrder`). -/
theorem alookup_map_keyfix {α β : Type} [DecidableEq α] (l : List (α × β)) (k k0 : α)
    (f : β → β) :
    alookup k (l.map fun p => if p.1 = k0 then (p.1, f p.2) else p) =
      if k = k0 then (alookup k l).map f else alookup k l := by
  induction l with
  | nil => simp [alookup]
  | cons p t ih =>
    by_cases hp : p.1 = k0 <;> by_cases hk : p.1 = k
    · have hkk : k = k0 := by rw [← hk, hp]
      simp [alookup, hp, hk, hkk]
    · have h1 : ¬(k0 = k) := by
        rw [← hp]
        exact hk
      have h2 : ¬(k = k0) := fun he => h1 he.symm
      simp [alookup, hp, hk, h1, h2, ih]
    · have hkk : ¬(k = k0) := by
        rw [← hk]
        exact hp
      simp [alookup, hp, hk, hkk]
    · simp [alookup, hp, hk, ih]

/-- Lookup through a value-substitution map that keeps keys (the shape of
`GOp.replace_input`, `GOp.replace_output` and `GOp.substVar` slot maps). -/
theorem alookup_map_sndsubst {α β : Type} [DecidableEq α] [DecidableEq β]
    (l : List (α × β)) (k : α) (a b : β) :
    alookup k (l.map fun p => if p.2 = a then (p.1, b) else p) =
      (alookup k l).map fun v => if v = a then b else v := by
  induction l with
  | nil => simp [alookup]
  | cons p t ih =>
    by_cases hv : p.2 = a
    · by_cases hk : p.1 = k
      · simp [alookup, hv, hk]
      · simp only [List.map_cons, if_pos hv, alookup, if_neg hk, ih]
    · by_cases hk : p.1 = k
      · simp [alookup, hv, hk]
      · simp only [List.map_cons, if_neg hv, alookup, if_neg hk, ih]

/-- Lookup through a key-preserving whole-list value map (the shape of
`varReplace`). -/
theorem alookup_map_pair {α β : Type} [DecidableEq α] (l : List (α × β)) (k : α)
    (f : β → β) :
    alookup k (l.map fun p => (p.1, f p.2)) = (alookup k l).map f := by
  induction l with
  | nil => simp [alookup]
  | cons p t ih =>
    by_cases hk : p.1 = k
    · simp [alookup, hk]
    · simp only [List.map_cons, alookup, if_neg hk, ih]

theorem map_sndsubst_id {α β : Type} [DecidableEq β] {l : List (α × β)} {a b : β}
    (h : ∀ p ∈ l, p.2 ≠ a) :
    (l.map fun p => if p.2 = a then (p.1, b) else p) = l := by
  induction l with
  | nil => rfl
  | cons p t ih =>
    simp only [List.map_cons, if_neg (h p (List.mem_cons_self p t))]
    rw [ih fun q hq => h q (List.mem_cons_of_mem _ hq)]

theorem GOp.substVar_id {g : GOp} {a b : Nat} (h : ∀ v ∈ g.varIds, v ≠ a) :
    g.substVar a b = g := by
  have hin : ∀ p ∈ g.inputs, p.2 ≠ a := fun p hp =>
    h p.2 (List.mem_append_left _ (List.mem_map_of_mem Prod.snd hp))
  have hout : ∀ p ∈ g.outputs, p.2 ≠ a := fun p hp =>
    h p.2 (List.mem_append_right _ (List.mem_map_of_mem Prod.snd hp))
  simp [GOp.substVar, map_sndsubst_id hin, map_sndsubst_id hout]

theorem GOp.varIds_replace_output {g : GOp} {v v2 w : Nat}
    (h : w ∈ (g.replace_output v v2).varIds) : w = v2 ∨ w ∈ g.varIds := by
  simp only [GOp.varIds, GOp.replace_output, List.mem_append, List.mem_map] at h ⊢
  rcases h with ⟨p, hp, hw⟩ | ⟨p, hp, hw⟩
  · right
    left
    exact ⟨p, hp, hw⟩
  · obtain ⟨q, hq, hqe⟩ := hp
    by_cases hqa : q.2 = v
    · rw [if_pos hqa] at hqe
      left
      rw [← hw, ← hqe]
    · rw [if_neg hqa] at hqe
      right
      right
      exact ⟨q, hq, by rw [← hw, ← hqe]⟩

/-! ### Behavioral lemmas about the conversion pass -/

/-- A rewriting action either reports `false` and leaves the state untouched,
or reports `true` and strictly grows the operator list. -/
def ruleNoopOrGrow (f : GState → GState × Bool) : Prop :=
  ∀ s, ((f s).2 = false ∧ (f s).1 = s) ∨
       ((f s).2 = true ∧ s.ops.length < (f s).1.ops.length)

theorem spliceInputCore_ops_length (K : OpKind) (M : CMode) (s : GState) (oid v : Nat) :
    (spliceInputCore K M s oid v).ops.length = s.ops.length + 1 := by
  simp [spliceInputCore, convertCore, TextureShape.set, GState.updateOp]

theorem spliceOutputCore_ops_length (K : OpKind) (M : CMode) (s : GState) (oid v : Nat)
    (t : CMode) :
    (spliceOutputCore K M s oid v t).ops.length = s.ops.length + 1 := by
  simp [spliceOutputCore, convertCore, ChannelMode.set, GState.updateOp, changeOrder,
        varReplace]

theorem replaceInputSlot_noopOrGrow (oid : Nat) (n : String) (t : CMode) :
    ruleNoopOrGrow (fun s => replaceInputSlot s oid n t) := by
  intro s
  cases hop : alookup oid s.ops with
  | none => exact Or.inl ⟨by simp [replaceInputSlot, hop], by simp [replaceInputSlot, hop]⟩
  | some g =>
    cases hv : alookup n g.inputs with
    | none =>
      exact Or.inl ⟨by simp [replaceInputSlot, hop, hv], by simp [replaceInputSlot, hop, hv]⟩
    | some v =>
      by_cases hm : ChannelMode.get s v = t
      · exact Or.inl ⟨by simp [replaceInputSlot, hop, hv, hm],
          by simp [replaceInputSlot, hop, hv, hm]⟩
      · by_cases ht : t = CMode.RGBA
        · subst ht
          refine Or.inr ⟨?_, ?_⟩
          · simp [replaceInputSlot, hop, hv, hm]
          · simp [replaceInputSlot, hop, hv, hm, spliceInputCore_ops_length]
        · refine Or.inr ⟨?_, ?_⟩
          · simp [replaceInputSlot, hop, hv, hm, ht]
          · simp [replaceInputSlot, hop, hv, hm, ht, spliceInputCore_ops_length]

theorem replaceOutputSlot_noopOrGrow (oid : Nat) (n : String) (t : CMode) :
    ruleNoopOrGrow (fun s => replaceOutputSlot s oid n t) := by
  intro s
  cases hop : alookup oid s.ops with
  | none => exact Or.inl ⟨by simp [replaceOutputSlot, hop], by simp [replaceOutputSlot, hop]⟩
  | some g =>
    cases hv : alookup n g.outputs with
    | none =>
      exact Or.inl ⟨by simp [replaceOutputSlot, hop, hv], by simp [replaceOutputSlot, hop, hv]⟩
    | some v =>
      by_cases hm : ChannelMode.get s v = t
      · exact Or.inl ⟨by simp [replaceOutputSlot, hop, hv, hm],
          by simp [replaceOutputSlot, hop, hv, hm]⟩
      · by_cases ht : t = CMode.RGBA
        · subst ht
          refine Or.inr ⟨?_, ?_⟩
          · simp [replaceOutputSlot, hop, hv, hm]
          · simp [replaceOutputSlot, hop, hv, hm, spliceOutputCore_ops_length]
        · refine Or.inr ⟨?_, ?_⟩
          · simp [replaceOutputSlot, hop, hv, hm, ht]
          · simp [replaceOutputSlot, hop, hv, hm, ht, spliceOutputCore_ops_length]

theorem seqStep_noopOrGrow {f g : GState → GState × Bool}
    (hf : ruleNoopOrGrow f) (hg : ruleNoopOrGrow g) : ruleNoopOrGrow (seqStep f g) := by
  intro s
  rcases hf s with ⟨h1, h2⟩ | ⟨h1, h2⟩ <;> rcases hg (f s).1 with ⟨h3, h4⟩ | ⟨h3, h4⟩
  · exact Or.inl ⟨by simp [seqStep, h1, h3], by simp only [seqStep]; rw [h4, h2]⟩
  · refine Or.inr ⟨by simp [seqStep, h3], ?_⟩
    simp only [seqStep]
    have heq : (f s).1.ops.length = s.ops.length := by rw [h2]
    omega
  · refine Or.inr ⟨by simp [seqStep, h1], ?_⟩
    simp only [seqStep]
    have heq : (g (f s).1).1.ops.length = (f s).1.ops.length := by rw [h4]
    omega
  · refine Or.inr ⟨by simp [seqStep, h1], ?_⟩
    simp only [seqStep]
    omega

theorem anyEffect_noopOrGrow {f : GState → String → GState × Bool}
    (hf : ∀ n, ruleNoopOrGrow (fun s => f s n)) (l : List String) :
    ruleNoopOrGrow (fun s => anyEffect f s l) := by
  induction l with
  | nil =>
    intro s
    exact Or.inl ⟨rfl, rfl⟩
  | cons n rest ih =>
    intro s
    rcases hf n s with ⟨h1, h2⟩ | ⟨h1, h2⟩
    · simp only [anyEffect, h1, Bool.false_eq_true, if_false]
      rw [h2]
      exact ih s
    · simp only [anyEffect, h1, if_true]
      exact Or.inr ⟨trivial, h2⟩

theorem replaceInputAll_noopOrGrow (oid : Nat) (t : CMode) :
    ruleNoopOrGrow (fun s => replaceInputAll s oid t) := by
  intro s
  cases hop : alookup oid s.ops with
  | none =>
    exact Or.inl ⟨by simp [replaceInputAll, hop], by simp [replaceInputAll, hop]⟩
  | some g =>
    rcases anyEffect_noopOrGrow (fun n => replaceInputSlot_noopOrGrow oid n t)
        (g.inputs.map Prod.fst) s with ⟨h1, h2⟩ | ⟨h1, h2⟩
    · refine Or.inl ⟨?_, ?_⟩
      · simp only [replaceInputAll, hop]
        exact h1
      · simp only [replaceInputAll, hop]
        exact h2
    · refine Or.inr ⟨?_, ?_⟩
      · simp only [replaceInputAll, hop]
        exact h1
      · simp only [replaceInputAll, hop]
        exact h2

theorem replaceOutputAll_noopOrGrow (oid : Nat) (t : CMode) :
    ruleNoopOrGrow (fun s => replaceOutputAll s oid t) := by
  intro s
  cases hop : alookup oid s.ops with
  | none =>
    exact Or.inl ⟨by simp [replaceOutputAll, hop], by simp [replaceOutputAll, hop]⟩
  | some g =>
    rcases anyEffect_noopOrGrow (fun n => replaceOutputSlot_noopOrGrow oid n t)
        (g.outputs.map Prod.fst) s with ⟨h1, h2⟩ | ⟨h1, h2⟩
    · refine Or.inl ⟨?_, ?_⟩
      · simp only [replaceOutputAll, hop]
        exact h1
      · simp only [replaceOutputAll, hop]
        exact h2
    · refine Or.inr ⟨?_, ?_⟩
      · simp only [replaceOutputAll, hop]
        exact h1
      · simp only [replaceOutputAll, hop]
        exact h2

theorem stepOp_noopOrGrow (oid : Nat) : ruleNoopOrGrow (fun s => stepOp s oid) := by
  intro s
  cases hop : alookup oid s.ops with
  | none => exact Or.inl ⟨by simp [stepOp, hop], by simp [stepOp, hop]⟩
  | some g =>
    cases hk : g.kind
    case Sgemm => exact Or.inl ⟨by simp [stepOp, hop, hk], by simp [stepOp, hop, hk]⟩
    case Tensordot => exact Or.inl ⟨by simp [stepOp, hop, hk], by simp [stepOp, hop, hk]⟩
    case ConvertRGBAtoR =>
      rcases seqStep_noopOrGrow (replaceInputSlot_noopOrGrow oid "x0" CMode.RGBA)
          (replaceOutputSlot_noopOrGrow oid "y" CMode.R) s with ⟨h1, h2⟩ | ⟨h1, h2⟩
      · refine Or.inl ⟨?_, ?_⟩ <;> simp only [stepOp, hop, hk]
        · exact h1
        · exact h2
      · refine Or.inr ⟨?_, ?_⟩ <;> simp only [stepOp, hop, hk]
        · exact h1
        · exact h2
    case ConvertRtoRGBA =>
      rcases seqStep_noopOrGrow (replaceInputSlot_noopOrGrow oid "x0" CMode.R)
          (replaceOutputSlot_noopOrGrow oid "y" CMode.RGBA) s with ⟨h1, h2⟩ | ⟨h1, h2⟩
      · refine Or.inl ⟨?_, ?_⟩ <;> simp only [stepOp, hop, hk]
        · exact h1
        · exact h2
      · refine Or.inr ⟨?_, ?_⟩ <;> simp only [stepOp, hop, hk]
        · exact h1
        · exact h2
    case Generic =>
      rcases seqStep_noopOrGrow (replaceInputAll_noopOrGrow oid CMode.R)
          (replaceOutputAll_noopOrGrow oid CMode.R) s with ⟨h1, h2⟩ | ⟨h1, h2⟩
      · refine Or.inl ⟨?_, ?_⟩ <;> simp only [stepOp, hop, hk]
        · exact h1
        · exact h2
      · refine Or.inr ⟨?_, ?_⟩ <;> simp only [stepOp, hop, hk]
        · exact h1
        · exact h2

theorem optimizeGo_len (ids : List Nat) (s : GState) (flag : Bool) :
    s.ops.length ≤ (optimizeGo s flag ids).1.ops.length := by
  induction ids generalizing s flag with
  | nil => exact le_refl _
  | cons oid rest ih =>
    rcases stepOp_noopOrGrow oid s with ⟨_, h2⟩ | ⟨_, h2⟩
    · simp only [optimizeGo]
      rw [h2]
      exact ih s _
    · simp only [optimizeGo]
      exact le_trans (le_of_lt h2) (ih _ _)

theorem optimizeGo_false {ids : List Nat} {s : GState} {flag : Bool}
    (h : (optimizeGo s flag ids).2 = false) :
    flag = false ∧ (optimizeGo s flag ids).1 = s := by
  induction ids generalizing s flag with
  | nil => exact ⟨h, rfl⟩
  | cons oid rest ih =>
    simp only [optimizeGo] at h ⊢
    obtain ⟨hf, hs⟩ := ih h
    have hflag : flag = false := by
      rcases Bool.or_eq_false_iff.mp hf with ⟨h1, _⟩
      exact h1
    have hb : (stepOp s oid).2 = false := by
      rcases Bool.or_eq_false_iff.mp hf with ⟨_, h2⟩
      exact h2
    rcases stepOp_noopOrGrow oid s with ⟨_, h2⟩ | ⟨h1, _⟩
    · exact ⟨hflag, by rw [hs, h2]⟩
    · rw [h1] at hb
      cases hb

theorem optimizeGo_true_len {ids : List Nat} {s : GState}
    (h : (optimizeGo s false ids).2 = true) :
    s.ops.length < (optimizeGo s false ids).1.ops.length := by
  induction ids generalizing s with
  | nil => simp [optimizeGo] at h
  | cons oid rest ih =>
    rcases stepOp_noopOrGrow oid s with ⟨h1, h2⟩ | ⟨h1, h2⟩
    · simp only [optimizeGo, h1, Bool.or_false] at h ⊢
      rw [h2] at h ⊢
      exact ih h
    · simp only [optimizeGo, h1, Bool.or_true] at h ⊢
      exact lt_of_lt_of_le h2 (optimizeGo_len rest _ true)

/-! Matched-slot lemmas: when the slots already carry the target mode, the
rewrite helpers do nothing and report `false`. -/

theorem replaceInputSlot_matched {s : GState} {oid : Nat} {n : String} {t : CMode}
    {g : GOp} (hop : alookup oid s.ops = some g)
    (hmode : ∀ v, alookup n g.inputs = some v → ChannelMode.get s v = t) :
    replaceInputSlot s oid n t = (s, false) := by
  unfold replaceInputSlot
  split
  · rfl
  next g2 hg2 =>
    rw [hop] at hg2
    injection hg2 with hg2
    subst hg2
    split
    · rfl
    next v hv =>
      rw [if_pos (hmode v hv)]

theorem replaceOutputSlot_matched {s : GState} {oid : Nat} {n : String} {t : CMode}
    {g : GOp} (hop : alookup oid s.ops = some g)
    (hmode : ∀ v, alookup n g.outputs = some v → ChannelMode.get s v = t) :
    replaceOutputSlot s oid n t = (s, false) := by
  unfold replaceOutputSlot
  split
  · rfl
  next g2 hg2 =>
    rw [hop] at hg2
    injection hg2 with hg2
    subst hg2
    split
    · rfl
    next v hv =>
      rw [if_pos (hmode v hv)]

theorem anyEffect_matched {f : GState → String → GState × Bool} {s : GState}
    {l : List String} (hf : ∀ n ∈ l, f s n = (s, false)) :
    anyEffect f s l = (s, false) := by
  induction l with
  | nil => rfl
  | cons n rest ih =>
    have h1 := hf n (List.mem_cons_self n rest)
    simp only [anyEffect, h1]
    exact ih fun m hm => hf m (List.mem_cons_of_mem _ hm)

theorem replaceInputAll_matched {s : GState} {oid : Nat} {t : CMode} {g : GOp}
    (hop : alookup oid s.ops = some g)
    (hall : ∀ p ∈ g.inputs, ChannelMode.get s p.2 = t) :
    replaceInputAll s oid t = (s, false) := by
  unfold replaceInputAll
  rw [hop]
  refine anyEffect_matched fun n _ => ?_
  refine replaceInputSlot_matched hop fun v hv => ?_
  exact hall (n, v) (alookup_mem hv)

theorem replaceOutputAll_matched {s : GState} {oid : Nat} {t : CMode} {g : GOp}
    (hop : alookup oid s.ops = some g)
    (hall : ∀ p ∈ g.outputs, ChannelMode.get s p.2 = t) :
    replaceOutputAll s oid t = (s, false) := by
  unfold replaceOutputAll
  rw [hop]
  refine anyEffect_matched fun n _ => ?_
  refine replaceOutputSlot_matched hop fun v hv => ?_
  exact hall (n, v) (alookup_mem hv)

theorem stepOp_satisfied {s : GState} {oid : Nat}
    (h : satisfiedStateB s = true) : stepOp s oid = (s, false) := by
  unfold stepOp
  split
  · rfl
  next g hg =>
    have hsat : opSatisfiedB s g = true := by
      have := List.all_eq_true.mp h (oid, g) (alookup_mem hg)
      exact this
    split
    · rfl
    · rfl
    · -- ConvertRGBAtoR
      next hk =>
      rw [opSatisfiedB, hk, Bool.and_eq_true] at hsat
      have hin : replaceInputSlot s oid "x0" CMode.RGBA = (s, false) := by
        refine replaceInputSlot_matched hg fun v hv => ?_
        have := hsat.1
        rw [hv] at this
        simpa using this
      have hout : replaceOutputSlot s oid "y" CMode.R = (s, false) := by
        refine replaceOutputSlot_matched hg fun v hv => ?_
        have := hsat.2
        rw [hv] at this
        simpa using this
      simp [seqStep, hin, hout]
    · -- ConvertRtoRGBA
      next hk =>
      rw [opSatisfiedB, hk, Bool.and_eq_true] at hsat
      have hin : replaceInputSlot s oid "x0" CMode.R = (s, false) := by
        refine replaceInputSlot_matched hg fun v hv => ?_
        have := hsat.1
        rw [hv] at this
        simpa using this
      have hout : replaceOutputSlot s oid "y" CMode.RGBA = (s, false) := by
        refine replaceOutputSlot_matched hg fun v hv => ?_
        have := hsat.2
        rw [hv] at this
        simpa using this
      simp [seqStep, hin, hout]
    · -- Generic
      next hk =>
      rw [opSatisfiedB, hk, Bool.and_eq_true] at hsat
      have hin : replaceInputAll s oid CMode.R = (s, false) := by
        refine replaceInputAll_matched hg fun p hp => ?_
        have := List.all_eq_true.mp hsat.1 p hp
        simpa using this
      have hout : replaceOutputAll s oid CMode.R = (s, false) := by
        refine replaceOutputAll_matched hg fun p hp => ?_
        have := List.all_eq_true.mp hsat.2 p hp
        simpa using this
      simp [seqStep, hin, hout]

theorem optimizeGo_satisfied {s : GState} (h : satisfiedStateB s = true)
    (ids : List Nat) (flag : Bool) : optimizeGo s flag ids = (s, flag) := by
  induction ids with
  | nil => rfl
  | cons oid rest ih =>
    simp only [optimizeGo, stepOp_satisfied h, Bool.or_false]
    exact ih

/-! Changed-flag analysis: when a rewrite helper reports `false`, the inspected
slots were already matching. -/

theorem replaceInputSlot_false_matched {s : GState} {oid : Nat} {n : String}
    {t : CMode} {g : GOp} (hop : alookup oid s.ops = some g)
    (h : (replaceInputSlot s oid n t).2 = false) :
    ∀ v, alookup n g.inputs = some v → ChannelMode.get s v = t := by
  intro v hv
  by_contra hm
  by_cases ht : t = CMode.RGBA
  · subst ht
    simp [replaceInputSlot, hop, hv, hm] at h
  · simp [replaceInputSlot, hop, hv, hm, ht] at h

theorem replaceOutputSlot_false_matched {s : GState} {oid : Nat} {n : String}
    {t : CMode} {g : GOp} (hop : alookup oid s.ops = some g)
    (h : (replaceOutputSlot s oid n t).2 = false) :
    ∀ v, alookup n g.outputs = some v → ChannelMode.get s v = t := by
  intro v hv
  by_contra hm
  by_cases ht : t = CMode.RGBA
  · subst ht
    simp [replaceOutputSlot, hop, hv, hm] at h
  · simp [replaceOutputSlot, hop, hv, hm, ht] at h

theorem anyEffect_false_all {f : GState → String → GState × Bool}
    (hf : ∀ n, ruleNoopOrGrow (fun s => f s n)) {s : GState} {l : List String}
    (h : (anyEffect f s l).2 = false) : ∀ n ∈ l, (f s n).2 = false := by
  induction l generalizing s with
  | nil =>
    intro n hn
    cases hn
  | cons m rest ih =>
    intro n hn
    have hm : (f s m).2 = false := by
      cases hx : (f s m).2
      · rfl
      · simp [anyEffect, hx] at h
    have hstate : (f s m).1 = s :=
      ((hf m s).resolve_right (by simp [hm])).2
    rcases List.mem_cons.mp hn with he | hr
    · rw [he]
      exact hm
    · simp only [anyEffect, hm, Bool.false_eq_true, if_false] at h
      rw [hstate] at h
      exact ih h n hr

theorem replaceInputAll_false_all {s : GState} {oid : Nat} {t : CMode} {g : GOp}
    (hop : alookup oid s.ops = some g) (hnd : (g.inputs.map Prod.fst).Nodup)
    (h : (replaceInputAll s oid t).2 = false) :
    ∀ p ∈ g.inputs, ChannelMode.get s p.2 = t := by
  intro p hp
  have h2 : (anyEffect (fun s n => replaceInputSlot s oid n t) s
      (g.inputs.map Prod.fst)).2 = false := by
    simp only [replaceInputAll, hop] at h
    exact h
  have hall := anyEffect_false_all (fun n => replaceInputSlot_noopOrGrow oid n t) h2
    p.1 (List.mem_map_of_mem Prod.fst hp)
  exact replaceInputSlot_false_matched hop hall p.2 (alookup_eq_of_mem_nodup hnd hp)

theorem replaceOutputAll_false_all {s : GState} {oid : Nat} {t : CMode} {g : GOp}
    (hop : alookup oid s.ops = some g) (hnd : (g.outputs.map Prod.fst).Nodup)
    (h : (replaceOutputAll s oid t).2 = false) :
    ∀ p ∈ g.outputs, ChannelMode.get s p.2 = t := by
  intro p hp
  have h2 : (anyEffect (fun s n => replaceOutputSlot s oid n t) s
      (g.outputs.map Prod.fst)).2 = false := by
    simp only [replaceOutputAll, hop] at h
    exact h
  have hall := anyEffect_false_all (fun n => replaceOutputSlot_noopOrGrow oid n t) h2
    p.1 (List.mem_map_of_mem Prod.fst hp)
  exact replaceOutputSlot_false_matched hop hall p.2 (alookup_eq_of_mem_nodup hnd hp)

/-! Slot-redirection lemmas. -/

theorem GOp.replace_input_alookup {g : GOp} {n : String} {v v2 : Nat}
    (hv : alookup n g.inputs = some v) :
    alookup n (g.replace_input v v2).inputs = some v2 := by
  simp [GOp.replace_input, alookup_map_sndsubst, hv]

theorem GOp.replace_output_alookup {g : GOp} {n : String} {v v2 : Nat}
    (hv : alookup n g.outputs = some v) :
    alookup n (g.replace_output v v2).outputs = some v2 := by
  simp [GOp.replace_output, alookup_map_sndsubst, hv]

theorem spliceInputCore_texget (K : OpKind) (M : CMode) (s : GState) (oid v : Nat) :
    TextureShape.get (spliceInputCore K M s oid v) s.freshVar = TextureShape.get s v := by
  simp [spliceInputCore, convertCore, TextureShape.set, TextureShape.get,
        GState.updateOp, alookup]

theorem spliceInputCore_slot (K : OpKind) (M : CMode) (s : GState) (oid v : Nat)
    {g : GOp} (hop : alookup oid s.ops = some g) :
    alookup oid (spliceInputCore K M s oid v).ops =
      some (g.replace_input v s.freshVar) := by
  have h1 := alookup_map_keyfix
    (s.ops ++ [(s.freshOp, GOp.mk K [("x0", v)] [("y", s.freshVar)])]) oid oid
    (fun g2 => GOp.replace_input g2 v s.freshVar)
  rw [if_pos rfl, alookup_append_left hop] at h1
  exact h1

theorem alookup_cons_self {α β : Type} [DecidableEq α] (k : α) (b : β)
    (l : List (α × β)) : alookup k ((k, b) :: l) = some b := by
  simp [alookup]

theorem alookup_cons_ne {α β : Type} [DecidableEq α] {k a : α} (h : a ≠ k) (b : β)
    (l : List (α × β)) : alookup k ((a, b) :: l) = alookup k l := by
  simp [alookup, h]

/-- The combined effect of the output-splicing branch on a well-formed graph:
the original variable's payload is untouched, the operator now writes the fresh
variable `s.freshVar` (which carries mode `target`), the new conversion
operator (id `s.freshOp`) reads the fresh variable and writes the original one,
and every other operator is untouched. -/
theorem spliceOutputCore_spec (K : OpKind) (M : CMode) (s : GState) (oid v : Nat)
    (target : CMode) (g : GOp)
    (hop : alookup oid s.ops = some g)
    (hoplt : ∀ p ∈ s.ops, p.1 < s.freshOp)
    (hvarlt : ∀ p ∈ s.ops, ∀ w ∈ p.2.varIds, w < s.freshVar)
    (hvlt : v < s.freshVar) :
    alookup v (spliceOutputCore K M s oid v target).varData = alookup v s.varData ∧
    alookup oid (spliceOutputCore K M s oid v target).ops =
      some (g.replace_output v s.freshVar) ∧
    ChannelMode.get (spliceOutputCore K M s oid v target) s.freshVar = target ∧
    alookup s.freshOp (spliceOutputCore K M s oid v target).ops =
      some (GOp.mk K [("x0", s.freshVar)] [("y", v)]) ∧
    (∀ oid2 g2, oid2 ≠ oid → alookup oid2 s.ops = some g2 →
      alookup oid2 (spliceOutputCore K M s oid v target).ops = some g2) := by
  have hgmem : (oid, g) ∈ s.ops := alookup_mem hop
  have hglt : ∀ w ∈ g.varIds, w < s.freshVar := hvarlt (oid, g) hgmem
  set fv := s.freshVar with hfv
  set fo := s.freshOp with hfo
  set vd : VarData := (alookup v s.varData).getD (VarData.mk [] []) with hvd
  set vd2 : VarData :=
    (alookup fv ((fv, vd) :: s.varData)).getD (VarData.mk [] []) with hvd2
  set DD : List (Nat × VarData) := (fv + 1, vd2) :: (fv, vd) :: s.varData with hDD
  set LL : List (Nat × GOp) :=
    (s.ops.map fun p => if p.1 = oid then (p.1, GOp.replace_output p.2 v fv) else p) ++
      [(fo, GOp.mk K [("x0", fv)] [("y", fv + 1)])] with hLL
  -- the substitution applied by `varReplace` is the identity on pre-existing
  -- operators and on the rewritten operator `oid`
  have hsubst_old : ∀ g2 : GOp, (∀ w ∈ g2.varIds, w < fv) →
      GOp.substVar g2 (fv + 1) v = g2 := fun g2 hg2 =>
    GOp.substVar_id fun w hw => by
      have := hg2 w hw
      omega
  have hsubst_repl : GOp.substVar (g.replace_output v fv) (fv + 1) v =
      g.replace_output v fv := by
    refine GOp.substVar_id fun w hw => ?_
    rcases GOp.varIds_replace_output hw with he | hm
    · omega
    · have := hglt w hm
      omega
  have hmapped : ∀ k : Nat,
      alookup k (s.ops.map fun p =>
        if p.1 = oid then (p.1, GOp.replace_output p.2 v fv) else p) =
      if k = oid then (alookup k s.ops).map (fun g2 => GOp.replace_output g2 v fv)
      else alookup k s.ops :=
    fun k => alookup_map_keyfix s.ops k oid (fun g2 => GOp.replace_output g2 v fv)
  -- lookup in the final operator list, for every key
  have hlook : ∀ k : Nat, alookup k (spliceOutputCore K M s oid v target).ops =
      (alookup k LL).map (fun g2 => GOp.substVar g2 (fv + 1) v) := by
    intro k
    calc alookup k (spliceOutputCore K M s oid v target).ops
        = alookup k (LL.map fun p => (p.1, GOp.substVar p.2 (fv + 1) v)) := rfl
      _ = (alookup k LL).map (fun g2 => GOp.substVar g2 (fv + 1) v) :=
          alookup_map_pair LL k (fun g2 => GOp.substVar g2 (fv + 1) v)
  refine ⟨?_, ?_, ?_, ?_, ?_⟩
  · -- the original variable's payload is untouched
    calc alookup v (spliceOutputCore K M s oid v target).varData
        = alookup v (DD.map fun p =>
            if p.1 = fv + 1 then (p.1, { p.2 with order := vd.order }) else p) := rfl
      _ = if v = fv + 1 then
            (alookup v DD).map (fun d => VarData.mk d.shape vd.order)
          else alookup v DD :=
          alookup_map_keyfix DD v (fv + 1) (fun d => VarData.mk d.shape vd.order)
      _ = alookup v DD := by rw [if_neg (by omega)]
      _ = alookup v s.varData := by
          rw [hDD, alookup_cons_ne (by omega), alookup_cons_ne (by omega)]
  · -- the operator now writes the fresh variable
    have e3 : alookup oid LL = some (g.replace_output v fv) := by
      rw [hLL]
      refine alookup_append_left ?_
      rw [hmapped oid, if_pos rfl, hop]
      rfl
    rw [hlook oid, e3]
    simp only [Option.map_some']
    rw [hsubst_repl]
  · -- the fresh variable carries the target mode
    show (alookup fv (spliceOutputCore K M s oid v target).chanMode).getD CMode.R =
      target
    have e4 : (spliceOutputCore K M s oid v target).chanMode =
        (fv + 1, M) :: (fv, target) :: s.chanMode := rfl
    rw [e4, alookup_cons_ne (by omega), alookup_cons_self]
    rfl
  · -- the conversion operator reads the fresh variable and writes `v`
    have hfo_ne : ¬(fo = oid) := by
      have := hoplt (oid, g) hgmem
      omega
    have hnone : alookup fo s.ops = none :=
      alookup_none_of_keys fun p hp => by
        have := hoplt p hp
        omega
    have e6 : alookup fo LL = some (GOp.mk K [("x0", fv)] [("y", fv + 1)]) := by
      rw [hLL]
      rw [alookup_append_right (by rw [hmapped fo, if_neg hfo_ne, hnone])]
      exact alookup_cons_self _ _ _
    rw [hlook fo, e6]
    simp only [Option.map_some']
    have hne2 : ¬(fv = fv + 1) := by omega
    simp [GOp.substVar, hne2]
  · -- all other operators are untouched
    intro oid2 g2 hne hg2
    have hg2mem : (oid2, g2) ∈ s.ops := alookup_mem hg2
    have e8 : alookup oid2 LL = some g2 := by
      rw [hLL]
      refine alookup_append_left ?_
      rw [hmapped oid2, if_neg hne, hg2]
    rw [hlook oid2, e8]
    simp only [Option.map_some']
    rw [hsubst_old g2 (hvarlt (oid2, g2) hg2mem)]

/-- C7: when the channel-mode pass splices a conversion on a mismatched output
slot, the rewrite reports `true`; the original output variable keeps its
identity, shape and order (its payload entry is untouched); the operator now
writes the fresh intermediate variable, which carries the required mode; the
original variable is reassigned to be produced by the inserted conversion
operator; and every other operator (hence every downstream consumer's
reference) is unchanged. -/
theorem C7_output_identity_preserved (s : GState) (oid : Nat) (g : GOp)
    (n : String) (v : Nat) (target : CMode)
    (hwf : s.WF) (hop : alookup oid s.ops = some g)
    (hv : alookup n g.outputs = some v) (hmode : ChannelMode.get s v ≠ target) :
    (replaceOutputSlot s oid n target).2 = true ∧
    alookup v (replaceOutputSlot s oid n target).1.varData = alookup v s.varData ∧
    (∃ g2, alookup oid (replaceOutputSlot s oid n target).1.ops = some g2 ∧
       alookup n g2.outputs = some s.freshVar) ∧
    ChannelMode.get (replaceOutputSlot s oid n target).1 s.freshVar = target ∧
    alookup s.freshOp (replaceOutputSlot s oid n target).1.ops =
      some (GOp.mk (if target = CMode.RGBA then OpKind.ConvertRGBAtoR
                    else OpKind.ConvertRtoRGBA)
            [("x0", s.freshVar)] [("y", v)]) ∧
    (∀ oid2 g2, oid2 ≠ oid → alookup oid2 s.ops = some g2 →
       alookup oid2 (replaceOutputSlot s oid n target).1.ops = some g2) := by
  have hoplt : ∀ p ∈ s.ops, p.1 < s.freshOp := fun p hp => (hwf p hp).1
  have hvarlt : ∀ p ∈ s.ops, ∀ w ∈ p.2.varIds, w < s.freshVar :=
    fun p hp => (hwf p hp).2.1
  have hvlt : v < s.freshVar :=
    hvarlt (oid, g) (alookup_mem hop) v
      (List.mem_append_right _ (List.mem_map_of_mem Prod.snd (alookup_mem hv)))
  by_cases ht : target = CMode.RGBA
  · subst ht
    have hred : replaceOutputSlot s oid n CMode.RGBA =
        (spliceOutputCore OpKind.ConvertRGBAtoR CMode.R s oid v CMode.RGBA, true) := by
      simp [replaceOutputSlot, hop, hv, hmode]
    obtain ⟨e1, e2, e3, e4, e5⟩ :=
      spliceOutputCore_spec OpKind.ConvertRGBAtoR CMode.R s oid v CMode.RGBA g hop
        hoplt hvarlt hvlt
    rw [hred]
    refine ⟨rfl, e1, ⟨g.replace_output v s.freshVar, e2,
      GOp.replace_output_alookup hv⟩, e3, ?_, e5⟩
    simp only [if_pos rfl]
    exact e4
  · have hred : replaceOutputSlot s oid n target =
        (spliceOutputCore OpKind.ConvertRtoRGBA CMode.RGBA s oid v target, true) := by
      simp [replaceOutputSlot, hop, hv, hmode, ht]
    obtain ⟨e1, e2, e3, e4, e5⟩ :=
      spliceOutputCore_spec OpKind.ConvertRtoRGBA CMode.RGBA s oid v target g hop
        hoplt hvarlt hvlt
    rw [hred]
    refine ⟨rfl, e1, ⟨g.replace_output v s.freshVar, e2,
      GOp.replace_output_alookup hv⟩, e3, ?_, e5⟩
    simp only [if_neg ht]
    exact e4

theorem replaceOutputSlot_texShape (s : GState) (oid : Nat) (n : String) (t : CMode) :
    (replaceOutputSlot s oid n t).1.texShape = s.texShape := by
  cases hop : alookup oid s.ops with
  | none => simp [replaceOutputSlot, hop]
  | some g =>
    cases hv : alookup n g.outputs with
    | none => simp [replaceOutputSlot, hop, hv]
    | some v =>
      by_cases hm : ChannelMode.get s v = t
      · simp [replaceOutputSlot, hop, hv, hm]
      · by_cases ht : t = CMode.RGBA
        · subst ht
          simp [replaceOutputSlot, hop, hv, hm, spliceOutputCore, convertCore,
                ChannelMode.set, GState.updateOp, changeOrder, varReplace]
        · simp [replaceOutputSlot, hop, hv, hm, ht, spliceOutputCore, convertCore,
                ChannelMode.set, GState.updateOp, changeOrder, varReplace]

/-- C1 (counterexample): pooling with `ksize = 3`, `stride = 2`, `padding = 0`
on an 8×8 spatial input does NOT yield output spatial extents 3 and 3. -/
theorem C1_pooling_8x8_counterexample :
    ¬ (((Pooling2D.exec { name := none, ksize := (3, 3), stride := (2, 2), padding := (0, 0) }
          { shape := { n := 1, h := 8, w := 8, c := 1 }, order := OrderNHWC }).y.shape.get
            Axis.H = 3) ∧
       ((Pooling2D.exec { name := none, ksize := (3, 3), stride := (2, 2), padding := (0, 0) }
          { shape := { n := 1, h := 8, w := 8, c := 1 }, order := OrderNHWC }).y.shape.get
            Axis.W = 3)) := by
  decide

/-- C1 (amended): for a `Pooling2D` operator with `ksize = 3`, `stride = 2`,
`padding = 0` applied to an input with spatial extents H = 8 and W = 8, the
output spatial extents computed by `exec` are 4 and 4, per the floor-division
formula `(8 + 0 + 2 - 3 - 1) // 2 + 1 = 4`. -/
theorem C1_pooling_8x8_extents :
    ((Pooling2D.exec { name := none, ksize := (3, 3), stride := (2, 2), padding := (0, 0) }
        { shape := { n := 1, h := 8, w := 8, c := 1 }, order := OrderNHWC }).y.shape.get
          Axis.H = 4) ∧
    ((Pooling2D.exec { name := none, ksize := (3, 3), stride := (2, 2), padding := (0, 0) }
        { shape := { n := 1, h := 8, w := 8, c := 1 }, order := OrderNHWC }).y.shape.get
          Axis.W = 4) ∧
    (8 + 0 + 2 - 3 - 1 : Int).fdiv 2 + 1 = 4 := by
  decide

/-- C5: `Pooling2D` construction fails exactly when `ksize[0] < stride[0]` or
`ksize[1] < stride[1]`; whenever `ksize` dominates `stride` componentwise,
construction succeeds and stores the (tupled) parameters. -/
theorem C5_init_charact (name : Option String) (ksize stride padding : IntOrTuple) :
    (Pooling2D.init name ksize stride padding = none ↔
      ((to_tuple ksize).1 < (to_tuple stride).1 ∨ (to_tuple ksize).2 < (to_tuple stride).2)) ∧
    ((to_tuple stride).1 ≤ (to_tuple ksize).1 → (to_tuple stride).2 ≤ (to_tuple ksize).2 →
      Pooling2D.init name ksize stride padding =
        some { name := name, ksize := to_tuple ksize, stride := to_tuple stride,
               padding := to_tuple padding }) := by
  unfold Pooling2D.init
  constructor
  · split_ifs with h1 h2 <;> simp <;> omega
  · intro h1 h2
    split_ifs <;> rfl

/-- C5 (witness): `ksize = 3 ≥ stride = 2` construction succeeds and stores the
parameters. -/
theorem C5_init_charact_witness :
    (2 : Int) ≤ 3 ∧
    Pooling2D.init (some "pool") (IntOrTuple.int 3) (IntOrTuple.int 2) (IntOrTuple.int 0) =
      some { name := some "pool", ksize := (3, 3), stride := (2, 2), padding := (0, 0) } :=
  ⟨by decide,
   (C5_init_charact (some "pool") (IntOrTuple.int 3) (IntOrTuple.int 2) (IntOrTuple.int 0)).2
     (by decide) (by decide)⟩

/-- C6: `Pooling2D.exec` emits the edge-truncation warning if and only if
`(H + 2*padding[0] - ksize[0]) % stride[0] ≠ 0` or
`(W + 2*padding[1] - ksize[1]) % stride[1] ≠ 0`, and in every case (warning or
not) it still produces the output variable with the truncated floor-division
output shape; the condition is non-fatal. -/
theorem C6_warning_iff (op : Pooling2D) (x : PoolVar) :
    ((op.exec x).warned = true ↔
      ((x.shape.get Axis.H + 2 * op.padding.1 - op.ksize.1).fmod op.stride.1 ≠ 0 ∨
       (x.shape.get Axis.W + 2 * op.padding.2 - op.ksize.2).fmod op.stride.2 ≠ 0)) ∧
    (op.exec x).y =
      { shape :=
          { n := x.shape.get Axis.N,
            h := (x.shape.get Axis.H + 2 * op.padding.1 + op.stride.1 - op.ksize.1 - 1).fdiv
                   op.stride.1 + 1,
            w := (x.shape.get Axis.W + 2 * op.padding.2 + op.stride.2 - op.ksize.2 - 1).fdiv
                   op.stride.2 + 1,
            c := x.shape.get Axis.C },
        order := x.order } := by
  constructor
  · simp [Pooling2D.exec]
  · rfl

/-- C9: in the WebAssembly backend's sub-rule list, the fusion rules all appear
before `UpdateInplaceAttribute`; `InsertTranspose` appears before every fusion
rule; and `DumpGraph` is appended at the end exactly when the debug flag is
set. -/
theorem C9_rule_order (debug : Bool) :
    (WasmRule.MergeSgemmAndElementwiseMul ∈ webassemblyOptimizeRule debug ∧
     WasmRule.ElementwiseKernelFusion ∈ webassemblyOptimizeRule debug ∧
     WasmRule.UpdateInplaceAttribute ∈ webassemblyOptimizeRule debug ∧
     WasmRule.InsertTranspose ∈ webassemblyOptimizeRule debug) ∧
    ((webassemblyOptimizeRule debug).drop
        ((webassemblyOptimizeRule debug).indexOf WasmRule.UpdateInplaceAttribute)).all
      (fun r => !isFusionRule r) = true ∧
    ((webassemblyOptimizeRule debug).take
        ((webassemblyOptimizeRule debug).indexOf WasmRule.InsertTranspose + 1)).all
      (fun r => !isFusionRule r) = true ∧
    (WasmRule.DumpGraph ∈ webassemblyOptimizeRule debug ↔ debug = true) ∧
    (debug = true → (webassemblyOptimizeRule debug).getLast? = some WasmRule.DumpGraph) := by
  cases debug <;> decide

/-- C9 (witness): with the debug flag set, `DumpGraph` is the last sub-rule. -/
theorem C9_rule_order_witness :
    (webassemblyOptimizeRule true).getLast? = some WasmRule.DumpGraph :=
  (C9_rule_order true).2.2.2.2 rfl

/-- C10: the output of `Pooling2D.exec` has the same order as the input, the
batch (`N`) and channel (`C`) extents of the input, and a `Tensorwise`
attribute is added exactly for the axes of the input's order other than
`H` and `W`. -/
theorem C10_order_and_extents (op : Pooling2D) (x : PoolVar)
    (_hperm : x.order.Perm OrderNHWC) :
    (op.exec x).y.order = x.order ∧
    (op.exec x).y.shape.get Axis.N = x.shape.get Axis.N ∧
    (op.exec x).y.shape.get Axis.C = x.shape.get Axis.C ∧
    (∀ a : Axis, a ∈ (op.exec x).tensorwiseAxes ↔
      (a ∈ x.order ∧ a ≠ Axis.H ∧ a ≠ Axis.W)) := by
  refine ⟨rfl, rfl, rfl, ?_⟩
  intro a
  simp [Pooling2D.exec, List.mem_filter, not_or, and_assoc]

/-- C10 (witness): a concrete CNHW-ordered input. -/
theorem C10_order_and_extents_witness :
    ([Axis.C, Axis.N, Axis.H, Axis.W].Perm OrderNHWC) ∧
    ((Pooling2D.exec { name := none, ksize := (2, 2), stride := (1, 1), padding := (0, 0) }
        { shape := { n := 2, h := 3, w := 4, c := 5 },
          order := [Axis.C, Axis.N, Axis.H, Axis.W] }).y.order =
        [Axis.C, Axis.N, Axis.H, Axis.W] ∧
     (Pooling2D.exec { name := none, ksize := (2, 2), stride := (1, 1), padding := (0, 0) }
        { shape := { n := 2, h := 3, w := 4, c := 5 },
          order := [Axis.C, Axis.N, Axis.H, Axis.W] }).y.shape.get Axis.N =
       ShapeDict.get { n := 2, h := 3, w := 4, c := 5 } Axis.N ∧
     (Pooling2D.exec { name := none, ksize := (2, 2), stride := (1, 1), padding := (0, 0) }
        { shape := { n := 2, h := 3, w := 4, c := 5 },
          order := [Axis.C, Axis.N, Axis.H, Axis.W] }).y.shape.get Axis.C =
       ShapeDict.get { n := 2, h := 3, w := 4, c := 5 } Axis.C ∧
     (∀ a : Axis,
        a ∈ (Pooling2D.exec { name := none, ksize := (2, 2), stride := (1, 1), padding := (0, 0) }
              { shape := { n := 2, h := 3, w := 4, c := 5 },
                order := [Axis.C, Axis.N, Axis.H, Axis.W] }).tensorwiseAxes ↔
          (a ∈ [Axis.C, Axis.N, Axis.H, Axis.W] ∧ a ≠ Axis.H ∧ a ≠ Axis.W))) :=
  ⟨by decide,
   C10_order_and_extents
     { name := none, ksize := (2, 2), stride := (1, 1), padding := (0, 0) }
     { shape := { n := 2, h := 3, w := 4, c := 5 },
       order := [Axis.C, Axis.N, Axis.H, Axis.W] } (by decide)⟩

/-- C2 (counterexample): running one invocation of the pass on a graph whose
single generic operator has two `RGBA`-mode inputs leaves the second input slot
`"x1"` bound to the original variable 1, whose channel mode still differs from
the operator's required mode `R` — a non-matching input slot of a visited
operator without a spliced conversion. -/
theorem C2_second_slot_counterexample :
    (alookup 0 (optimize twoInputState).1.ops).map (fun g => alookup "x1" g.inputs) =
      some (some 1) ∧
    ChannelMode.get (optimize twoInputState).1 1 ≠ CMode.R := by
  decide

/-- C3 (counterexample): splicing a conversion on an output slot does NOT copy
the texture shape of the original variable onto the new intermediate variable.
In `outputSpliceState` the original output (variable 0, texture shape (5, 7))
gets spliced; the new intermediate (variable 1) carries the required mode `R`
but not the original's texture shape. -/
theorem C3_output_splice_counterexample :
    (alookup 0 (optimize outputSpliceState).1.ops).map (fun g => alookup "y" g.outputs) =
      some (some 1) ∧
    ChannelMode.get (optimize outputSpliceState).1 1 = CMode.R ∧
    TextureShape.get (optimize outputSpliceState).1 1 ≠
      TextureShape.get outputSpliceState 0 := by
  decide

/-- C2 (amended): the per-operator input-slot loop short-circuits at the first
splice: when the first input slot of an operator holds a variable whose channel
mode differs from the target, `_replace_input_all` splices the conversion for
that slot, reports `true`, and processes none of the remaining slots in this
invocation (they are left for the repeated invocations of the fixed-point
driver). -/
theorem C2_first_mismatch_short_circuit (s : GState) (oid : Nat) (g : GOp)
    (n : String) (v : Nat) (rest : List (String × Nat)) (target : CMode)
    (hop : alookup oid s.ops = some g) (hin : g.inputs = (n, v) :: rest)
    (hmode : ChannelMode.get s v ≠ target) :
    (replaceInputSlot s oid n target).2 = true ∧
    replaceInputAll s oid target = ((replaceInputSlot s oid n target).1, true) := by
  have hv : alookup n g.inputs = some v := by
    rw [hin]
    exact alookup_cons_self n v rest
  have hflag : (replaceInputSlot s oid n target).2 = true := by
    by_cases ht : target = CMode.RGBA
    · subst ht
      simp [replaceInputSlot, hop, hv, hmode]
    · simp [replaceInputSlot, hop, hv, hmode, ht]
  refine ⟨hflag, ?_⟩
  simp only [replaceInputAll, hop, hin, List.map_cons]
  simp only [anyEffect, hflag, if_true]

/-- C2 (witness): in `twoInputState`, the generic operator's first input slot
"x0" (variable 0, mode RGBA ≠ R) is spliced, and the slot loop stops there. -/
theorem C2_first_mismatch_short_circuit_witness :
    alookup 0 twoInputState.ops =
      some (GOp.mk OpKind.Generic [("x0", 0), ("x1", 1)] []) ∧
    ChannelMode.get twoInputState 0 ≠ CMode.R ∧
    ((replaceInputSlot twoInputState 0 "x0" CMode.R).2 = true ∧
     replaceInputAll twoInputState 0 CMode.R =
       ((replaceInputSlot twoInputState 0 "x0" CMode.R).1, true)) :=
  ⟨by decide, by decide,
   C2_first_mismatch_short_circuit twoInputState 0
     (GOp.mk OpKind.Generic [("x0", 0), ("x1", 1)] []) "x0" 0 [("x1", 1)] CMode.R
     (by decide) (by decide) (by decide)⟩

/-- C3 (amended): when the pass splices a conversion on an input slot, the new
intermediate variable receives the texture shape of the original variable and
the slot is redirected to it; when it splices on an output slot, no
texture-shape metadata is written at all (the registry is unchanged), so the
new intermediate does not receive the original's texture shape. -/
theorem C3_texture_shape_copy (s : GState) (oid : Nat) (g : GOp) (n : String)
    (v : Nat) (target : CMode)
    (hop : alookup oid s.ops = some g) (hv : alookup n g.inputs = some v)
    (hmode : ChannelMode.get s v ≠ target) :
    ((replaceInputSlot s oid n target).2 = true ∧
     TextureShape.get (replaceInputSlot s oid n target).1 s.freshVar =
       TextureShape.get s v ∧
     (∃ g2, alookup oid (replaceInputSlot s oid n target).1.ops = some g2 ∧
        alookup n g2.inputs = some s.freshVar)) ∧
    (∀ n2 t2, (replaceOutputSlot s oid n2 t2).1.texShape = s.texShape) := by
  have hsplice : ∃ K M, (replaceInputSlot s oid n target).2 = true ∧
      (replaceInputSlot s oid n target).1 = spliceInputCore K M s oid v := by
    by_cases ht : target = CMode.RGBA
    · subst ht
      exact ⟨OpKind.ConvertRtoRGBA, CMode.RGBA,
        by simp [replaceInputSlot, hop, hv, hmode],
        by simp [replaceInputSlot, hop, hv, hmode]⟩
    · exact ⟨OpKind.ConvertRGBAtoR, CMode.R,
        by simp [replaceInputSlot, hop, hv, hmode, ht],
        by simp [replaceInputSlot, hop, hv, hmode, ht]⟩
  obtain ⟨K, M, hflag, hred⟩ := hsplice
  refine ⟨⟨hflag, ?_, ?_⟩, fun n2 t2 => replaceOutputSlot_texShape s oid n2 t2⟩
  · rw [hred]
    exact spliceInputCore_texget K M s oid v
  · rw [hred]
    exact ⟨g.replace_input v s.freshVar, spliceInputCore_slot K M s oid v hop,
      GOp.replace_input_alookup hv⟩

/-- C3 amended (witness): in `twoInputState`, splicing the input slot "x0"
(variable 0) copies variable 0's texture shape onto the new intermediate
(variable 2 = the fresh id). -/
theorem C3_texture_shape_copy_witness :
    alookup 0 twoInputState.ops =
      some (GOp.mk OpKind.Generic [("x0", 0), ("x1", 1)] []) ∧
    alookup "x0" (GOp.mk OpKind.Generic [("x0", 0), ("x1", 1)] [] : GOp).inputs =
      some 0 ∧
    ChannelMode.get twoInputState 0 ≠ CMode.R ∧
    (((replaceInputSlot twoInputState 0 "x0" CMode.R).2 = true ∧
      TextureShape.get (replaceInputSlot twoInputState 0 "x0" CMode.R).1
        twoInputState.freshVar = TextureShape.get twoInputState 0 ∧
      (∃ g2, alookup 0 (replaceInputSlot twoInputState 0 "x0" CMode.R).1.ops =
          some g2 ∧ alookup "x0" g2.inputs = some twoInputState.freshVar)) ∧
     (∀ n2 t2, (replaceOutputSlot twoInputState 0 n2 t2).1.texShape =
        twoInputState.texShape)) :=
  ⟨by decide, by decide, by decide,
   C3_texture_shape_copy twoInputState 0
     (GOp.mk OpKind.Generic [("x0", 0), ("x1", 1)] []) "x0" 0 CMode.R
     (by decide) (by decide) (by decide)⟩

/-- C4: per-operator dispatch of `InsertChannelModeConversion.optimize`:
`Sgemm`/`Tensordot` are skipped with no conversion inserted and the state
untouched; a `ConvertRGBAtoR` operator is left unchanged precisely when its
input "x0" carries mode RGBA and its output "y" mode R (so those are the modes
its slots are driven toward); `ConvertRtoRGBA` the reverse; every remaining
operator is left unchanged precisely when all of its input and output slots
carry mode R. -/
theorem C4_required_modes (s : GState) (oid : Nat) (g : GOp)
    (hwf : s.WF) (hop : alookup oid s.ops = some g) :
    ((g.kind = OpKind.Sgemm ∨ g.kind = OpKind.Tensordot) →
      stepOp s oid = (s, false)) ∧
    (g.kind = OpKind.ConvertRGBAtoR → ((stepOp s oid).2 = false ↔
      ((∀ v, alookup "x0" g.inputs = some v → ChannelMode.get s v = CMode.RGBA) ∧
       (∀ v, alookup "y" g.outputs = some v → ChannelMode.get s v = CMode.R)))) ∧
    (g.kind = OpKind.ConvertRtoRGBA → ((stepOp s oid).2 = false ↔
      ((∀ v, alookup "x0" g.inputs = some v → ChannelMode.get s v = CMode.R) ∧
       (∀ v, alookup "y" g.outputs = some v → ChannelMode.get s v = CMode.RGBA)))) ∧
    (g.kind = OpKind.Generic → ((stepOp s oid).2 = false ↔
      ((∀ p ∈ g.inputs, ChannelMode.get s p.2 = CMode.R) ∧
       (∀ p ∈ g.outputs, ChannelMode.get s p.2 = CMode.R)))) := by
  obtain ⟨-, -, hndin, hndout⟩ := hwf (oid, g) (alookup_mem hop)
  refine ⟨?_, ?_, ?_, ?_⟩
  · rintro (hk | hk) <;> simp [stepOp, hop, hk]
  · intro hk
    constructor
    · intro h
      have hseq : (seqStep (fun s2 => replaceInputSlot s2 oid "x0" CMode.RGBA)
          (fun s2 => replaceOutputSlot s2 oid "y" CMode.R) s).2 = false := by
        simp only [stepOp, hop, hk] at h
        exact h
      simp only [seqStep] at hseq
      rcases Bool.or_eq_false_iff.mp hseq with ⟨hb1, hb2⟩
      have hs1 : (replaceInputSlot s oid "x0" CMode.RGBA).1 = s :=
        ((replaceInputSlot_noopOrGrow oid "x0" CMode.RGBA s).resolve_right
          (by simp [hb1])).2
      rw [hs1] at hb2
      exact ⟨replaceInputSlot_false_matched hop hb1,
        replaceOutputSlot_false_matched hop hb2⟩
    · rintro ⟨ha, hb⟩
      have h1 := replaceInputSlot_matched hop ha
      have h2 := replaceOutputSlot_matched hop hb
      simp [stepOp, hop, hk, seqStep, h1, h2]
  · intro hk
    constructor
    · intro h
      have hseq : (seqStep (fun s2 => replaceInputSlot s2 oid "x0" CMode.R)
          (fun s2 => replaceOutputSlot s2 oid "y" CMode.RGBA) s).2 = false := by
        simp only [stepOp, hop, hk] at h
        exact h
      simp only [seqStep] at hseq
      rcases Bool.or_eq_false_iff.mp hseq with ⟨hb1, hb2⟩
      have hs1 : (replaceInputSlot s oid "x0" CMode.R).1 = s :=
        ((replaceInputSlot_noopOrGrow oid "x0" CMode.R s).resolve_right
          (by simp [hb1])).2
      rw [hs1] at hb2
      exact ⟨replaceInputSlot_false_matched hop hb1,
        replaceOutputSlot_false_matched hop hb2⟩
    · rintro ⟨ha, hb⟩
      have h1 := replaceInputSlot_matched hop ha
      have h2 := replaceOutputSlot_matched hop hb
      simp [stepOp, hop, hk, seqStep, h1, h2]
  · intro hk
    constructor
    · intro h
      have hseq : (seqStep (fun s2 => replaceInputAll s2 oid CMode.R)
          (fun s2 => replaceOutputAll s2 oid CMode.R) s).2 = false := by
        simp only [stepOp, hop, hk] at h
        exact h
      simp only [seqStep] at hseq
      rcases Bool.or_eq_false_iff.mp hseq with ⟨hb1, hb2⟩
      have hs1 : (replaceInputAll s oid CMode.R).1 = s :=
        ((replaceInputAll_noopOrGrow oid CMode.R s).resolve_right (by simp [hb1])).2
      rw [hs1] at hb2
      exact ⟨replaceInputAll_false_all hop hndin hb1,
        replaceOutputAll_false_all hop hndout hb2⟩
    · rintro ⟨ha, hb⟩
      have h1 := replaceInputAll_matched hop ha
      have h2 := replaceOutputAll_matched hop hb
      simp [stepOp, hop, hk, seqStep, h1, h2]

/-- C4 (witness): the `ConvertRGBAtoR` operator (id 2) of the fixed-point
graph. -/
theorem C4_required_modes_witness :
    fixedPointState.WF ∧
    alookup 2 fixedPointState.ops =
      some (GOp.mk OpKind.ConvertRGBAtoR [("x0", 1)] [("y", 2)]) ∧
    ((((GOp.mk OpKind.ConvertRGBAtoR [("x0", 1)] [("y", 2)]).kind = OpKind.Sgemm ∨
       (GOp.mk OpKind.ConvertRGBAtoR [("x0", 1)] [("y", 2)]).kind = OpKind.Tensordot) →
       stepOp fixedPointState 2 = (fixedPointState, false)) ∧
     ((GOp.mk OpKind.ConvertRGBAtoR [("x0", 1)] [("y", 2)]).kind =
        OpKind.ConvertRGBAtoR →
       ((stepOp fixedPointState 2).2 = false ↔
         ((∀ v, alookup "x0" (GOp.mk OpKind.ConvertRGBAtoR [("x0", 1)]
              [("y", 2)]).inputs = some v →
            ChannelMode.get fixedPointState v = CMode.RGBA) ∧
          (∀ v, alookup "y" (GOp.mk OpKind.ConvertRGBAtoR [("x0", 1)]
              [("y", 2)]).outputs = some v →
            ChannelMode.get fixedPointState v = CMode.R)))) ∧
     ((GOp.mk OpKind.ConvertRGBAtoR [("x0", 1)] [("y", 2)]).kind =
        OpKind.ConvertRtoRGBA →
       ((stepOp fixedPointState 2).2 = false ↔
         ((∀ v, alookup "x0" (GOp.mk OpKind.ConvertRGBAtoR [("x0", 1)]
              [("y", 2)]).inputs = some v →
            ChannelMode.get fixedPointState v = CMode.R) ∧
          (∀ v, alookup "y" (GOp.mk OpKind.ConvertRGBAtoR [("x0", 1)]
              [("y", 2)]).outputs = some v →
            ChannelMode.get fixedPointState v = CMode.RGBA)))) ∧
     ((GOp.mk OpKind.ConvertRGBAtoR [("x0", 1)] [("y", 2)]).kind = OpKind.Generic →
       ((stepOp fixedPointState 2).2 = false ↔
         ((∀ p ∈ (GOp.mk OpKind.ConvertRGBAtoR [("x0", 1)] [("y", 2)]).inputs,
            ChannelMode.get fixedPointState p.2 = CMode.R) ∧
          (∀ p ∈ (GOp.mk OpKind.ConvertRGBAtoR [("x0", 1)] [("y", 2)]).outputs,
            ChannelMode.get fixedPointState p.2 = CMode.R))))) :=
  ⟨by decide, by decide,
   C4_required_modes fixedPointState 2
     (GOp.mk OpKind.ConvertRGBAtoR [("x0", 1)] [("y", 2)]) (by decide) (by decide)⟩

/-- C7 (witness): splicing the output slot "y" (variable 0, mode RGBA, target
R) of the generic operator in `outputSpliceState`. -/
theorem C7_output_identity_preserved_witness :
    outputSpliceState.WF ∧
    alookup 0 outputSpliceState.ops = some (GOp.mk OpKind.Generic [] [("y", 0)]) ∧
    alookup "y" (GOp.mk OpKind.Generic [] [("y", 0)] : GOp).outputs = some 0 ∧
    ChannelMode.get outputSpliceState 0 ≠ CMode.R ∧
    ((replaceOutputSlot outputSpliceState 0 "y" CMode.R).2 = true ∧
     alookup 0 (replaceOutputSlot outputSpliceState 0 "y" CMode.R).1.varData =
       alookup 0 outputSpliceState.varData ∧
     (∃ g2, alookup 0 (replaceOutputSlot outputSpliceState 0 "y" CMode.R).1.ops =
        some g2 ∧ alookup "y" g2.outputs = some outputSpliceState.freshVar) ∧
     ChannelMode.get (replaceOutputSlot outputSpliceState 0 "y" CMode.R).1
       outputSpliceState.freshVar = CMode.R ∧
     alookup outputSpliceState.freshOp
       (replaceOutputSlot outputSpliceState 0 "y" CMode.R).1.ops =
       some (GOp.mk (if CMode.R = CMode.RGBA then OpKind.ConvertRGBAtoR
                     else OpKind.ConvertRtoRGBA)
             [("x0", outputSpliceState.freshVar)] [("y", 0)]) ∧
     (∀ oid2 g2, oid2 ≠ 0 → alookup oid2 outputSpliceState.ops = some g2 →
        alookup oid2 (replaceOutputSlot outputSpliceState 0 "y" CMode.R).1.ops =
          some g2)) :=
  ⟨by decide, by decide, by decide, by decide,
   C7_output_identity_preserved outputSpliceState 0
     (GOp.mk OpKind.Generic [] [("y", 0)]) "y" 0 CMode.R
     (by decide) (by decide) (by decide) (by decide)⟩

/-- C8: `InsertChannelModeConversion.optimize` returns changed = false exactly
when it left the graph untouched (inserted no conversion), and at its fixed
point — a graph where every operator's every input/output slot already carries
that operator's required channel mode — it inserts nothing, leaves the graph
unaltered and returns changed = false. -/
theorem C8_changed_iff_fixed_point (s : GState) :
    ((optimize s).2 = false ↔ (optimize s).1 = s) ∧
    (satisfiedStateB s = true → optimize s = (s, false)) := by
  constructor
  · constructor
    · intro h
      exact (optimizeGo_false h).2
    · intro h
      cases hb : (optimize s).2
      · rfl
      · exfalso
        have hlt : s.ops.length < (optimize s).1.ops.length := optimizeGo_true_len hb
        rw [h] at hlt
        omega
  · intro h
    exact optimizeGo_satisfied h (s.ops.map Prod.fst) false

/-- C8 (witness): the concrete fixed-point graph (a producer in mode R, an
R-to-RGBA conversion and an RGBA-to-R conversion, all slots matching). -/
theorem C8_changed_iff_fixed_point_witness :
    satisfiedStateB fixedPointState = true ∧
    optimize fixedPointState = (fixedPointState, false) :=
  ⟨by decide, (C8_changed_iff_fixed_point fixedPointState).2 (by decide)⟩

end WebDNN
